import Mathlib

/-!
Verification of the token-discovery and session-emulation engine of the
yclients-mcp-server repository (`src/yclients_mcp/client.py`).

The Python source is shallowly embedded: the regular-expression scans are
implemented as executable matchers over character lists, the network is a
finite map from URL to an optional (status, body) response (a missing entry
models a raised transport exception), and the stateful `BookingClient` is
embedded as explicit state passing.  HTTP traffic and rate-limiter
acquisitions are recorded in an event trace so that the temporal claims
(ordering of fetches, limiter admission, idempotence of discovery) can be
stated about the traces.
-/

set_option autoImplicit false

namespace YC

/-! ### Character classes and scanning primitives

These embed the regex searches of `client.py`.  All the patterns used by the
source are of a restricted shape (literal pieces separated by character-class
runs, with one capture group of characters disjoint from the surrounding
literals), so greedy maximal-munch matching coincides with Python `re`
semantics on them. -/

/-- The capture-group class `[a-zA-Z0-9_\-]` of `_PARTNER_TOKEN_PATTERNS`. -/
def isTokenChar (c : Char) : Bool :=
  c.isAlpha || c.isDigit || c == '_' || c == '-'

/-- Python `\s` (ASCII part). -/
def isSpaceChar (c : Char) : Bool :=
  c == ' ' || c == '\t' || c == '\n' || c == '\r' || c == Char.ofNat 11 || c == Char.ofNat 12

/-- Match a literal string at the head of the input, returning the remainder. -/
def lit (s : String) (cs : List Char) : Option (List Char) :=
  if List.isPrefixOf s.data cs then some (cs.drop s.length) else none

/-- `re.search` driver: try the matcher at each position, leftmost match wins. -/
def searchPat {α : Type} (m : List Char → Option α) : List Char → Option α
  | [] => m []
  | c :: rest =>
    match m (c :: rest) with
    | some r => some r
    | none => searchPat m rest

/-- Greedy capture of a character-class run with a minimum length
(`[class]{min,}`), returning the capture and the remainder. -/
def captureRun (p : Char → Bool) (minLen : Nat) (cs : List Char) :
    Option (String × List Char) :=
  let run := cs.takeWhile p
  if minLen ≤ run.length then some (String.mk run, cs.drop run.length) else none

/-- One-or-more greedy run of a character class (`[class]+`), no capture. -/
def class1 (p : Char → Bool) (cs : List Char) : Option (List Char) :=
  match cs with
  | c :: rest => if p c then some (rest.dropWhile p) else none
  | [] => none

/-! ### `_PARTNER_TOKEN_PATTERNS` (client.py lines 10–20) -/

/-- Pattern 1: `apiToken\s*:\s*"Bearer\s+([a-zA-Z0-9_\-]{8,})"`. -/
def pat1At (cs : List Char) : Option String := do
  let cs ← lit "apiToken" cs
  let cs ← lit ":" (cs.dropWhile isSpaceChar)
  let cs ← lit "\"Bearer" (cs.dropWhile isSpaceChar)
  let cs ← class1 isSpaceChar cs
  let (tok, cs) ← captureRun isTokenChar 8 cs
  let _ ← lit "\"" cs
  some tok

/-- Pattern 2: `"Bearer\s+([a-zA-Z0-9_\-]{8,})"`. -/
def pat2At (cs : List Char) : Option String := do
  let cs ← lit "\"Bearer" cs
  let cs ← class1 isSpaceChar cs
  let (tok, cs) ← captureRun isTokenChar 8 cs
  let _ ← lit "\"" cs
  some tok

/-- Pattern 3: `"partner_token"\s*:\s*"([a-zA-Z0-9_\-]{8,})"`. -/
def pat3At (cs : List Char) : Option String := do
  let cs ← lit "\"partner_token\"" cs
  let cs ← lit ":" (cs.dropWhile isSpaceChar)
  let cs ← lit "\"" (cs.dropWhile isSpaceChar)
  let (tok, cs) ← captureRun isTokenChar 8 cs
  let _ ← lit "\"" cs
  some tok

/-- Pattern 4: `'partner_token'\s*:\s*'([a-zA-Z0-9_\-]{8,})'`. -/
def pat4At (cs : List Char) : Option String := do
  let cs ← lit "\x27partner_token\x27" cs
  let cs ← lit ":" (cs.dropWhile isSpaceChar)
  let cs ← lit "\x27" (cs.dropWhile isSpaceChar)
  let (tok, cs) ← captureRun isTokenChar 8 cs
  let _ ← lit "\x27" cs
  some tok

/-- The separator class `["\'\s:=]` of patterns 5 and 6. -/
def isSepChar (c : Char) : Bool :=
  c == '"' || c == Char.ofNat 39 || isSpaceChar c || c == ':' || c == '='

/-- Pattern 5: `partnerToken["\'\s:=]+([a-zA-Z0-9_\-]{8,})`. -/
def pat5At (cs : List Char) : Option String := do
  let cs ← lit "partnerToken" cs
  let cs ← class1 isSepChar cs
  let (tok, _) ← captureRun isTokenChar 8 cs
  some tok

/-- Pattern 6: `PARTNER_TOKEN["\'\s:=]+([a-zA-Z0-9_\-]{8,})`. -/
def pat6At (cs : List Char) : Option String := do
  let cs ← lit "PARTNER_TOKEN" cs
  let cs ← class1 isSepChar cs
  let (tok, _) ← captureRun isTokenChar 8 cs
  some tok

/-- The loop `for pattern in _PARTNER_TOKEN_PATTERNS: m = pattern.search(text)`:
first pattern (in list order) that matches anywhere wins; the captured group
is returned. -/
def partnerTokenSearch (s : String) : Option String :=
  (searchPat pat1At s.data).orElse fun _ =>
  (searchPat pat2At s.data).orElse fun _ =>
  (searchPat pat3At s.data).orElse fun _ =>
  (searchPat pat4At s.data).orElse fun _ =>
  (searchPat pat5At s.data).orElse fun _ =>
  searchPat pat6At s.data

/-! ### `_APP_CONFIG_PATTERNS` (client.py lines 22–26) -/

/-- The alternation head `(?:^|[,{])` of the name/version config patterns. -/
def isOpenerChar (c : Char) : Bool :=
  c == ',' || c == Char.ofNat 123

/-- Search for a pattern of the form `(?:^|[,{]) body`: try the body at the
start of the string, else search for an opener character followed by the
body. -/
def anchoredSearch (body : List Char → Option String) (s : String) : Option String :=
  match body s.data with
  | some r => some r
  | none =>
    searchPat
      (fun cs =>
        match cs with
        | c :: rest => if isOpenerChar c then body rest else none
        | [] => none)
      s.data

/-- Body of `(?:^|[,{])\s*name\s*:\s*"(client\.[a-z]+)"`. -/
def appNameBodyAt (cs : List Char) : Option String := do
  let cs ← lit "name" (cs.dropWhile isSpaceChar)
  let cs ← lit ":" (cs.dropWhile isSpaceChar)
  let cs ← lit "\"client." (cs.dropWhile isSpaceChar)
  let (seg, cs) ← captureRun Char.isLower 1 cs
  let _ ← lit "\"" cs
  some ("client." ++ seg)

/-- `[0-9a-f]`. -/
def isHexChar (c : Char) : Bool :=
  c.isDigit || ('a' ≤ c && c ≤ 'f')

/-- Body of `(?:^|[,{])\s*version\s*:\s*"([0-9a-f]+\.[0-9a-f]+)"`. -/
def appVersionBodyAt (cs : List Char) : Option String := do
  let cs ← lit "version" (cs.dropWhile isSpaceChar)
  let cs ← lit ":" (cs.dropWhile isSpaceChar)
  let cs ← lit "\"" (cs.dropWhile isSpaceChar)
  let (h1, cs) ← captureRun isHexChar 1 cs
  let cs ← lit "." cs
  let (h2, cs) ← captureRun isHexChar 1 cs
  let _ ← lit "\"" cs
  some (h1 ++ "." ++ h2)

/-- `brandDomain\s*:\s*"([a-z]+)"`. -/
def brandDomainAt (cs : List Char) : Option String := do
  let cs ← lit "brandDomain" cs
  let cs ← lit ":" (cs.dropWhile isSpaceChar)
  let cs ← lit "\"" (cs.dropWhile isSpaceChar)
  let (seg, cs) ← captureRun Char.isLower 1 cs
  let _ ← lit "\"" cs
  some seg

/-- The `for key, cpat in _APP_CONFIG_PATTERNS.items()` extraction loop of
`scan_chunk`: the config dictionary in insertion order (name, version,
brandDomain), keeping only the keys whose pattern matched. -/
def appCfgExtract (js : String) : List (String × String) :=
  (match anchoredSearch appNameBodyAt js with
   | some x => [("name", x)]
   | none => []) ++
  (match anchoredSearch appVersionBodyAt js with
   | some x => [("version", x)]
   | none => []) ++
  (match searchPat brandDomainAt js.data with
   | some x => [("brandDomain", x)]
   | none => [])

/-! ### Bundle/chunk filename regexes (client.py lines 285, 310–313) -/

/-- True when the capture body of a `...[^"]+\.js` group is well formed:
at least one character before a final `.js`. -/
def endsWithJs (s : String) : Bool :=
  4 ≤ s.length && String.mk (s.data.drop (s.length - 3)) == ".js"

/-- `re.search(r'src="(main-[^"]+\.js)"', html)`: the main bundle filename. -/
def mainJsAt (cs : List Char) : Option String := do
  let cs ← lit "src=\"main-" cs
  let (body, cs) ← captureRun (fun c => c != '"') 4 cs
  let _ ← lit "\"" cs
  if endsWithJs body then some ("main-" ++ body) else none

/-- The class `["\'./]` heading `_CHUNK_RE`. -/
def isChunkPreChar (c : Char) : Bool :=
  c == '"' || c == Char.ofNat 39 || c == '.' || c == '/'

/-- `[A-Z0-9]`. -/
def isChunkNameChar (c : Char) : Bool :=
  c.isUpper || c.isDigit

/-- One match of `_CHUNK_RE = ["\'./]+(chunk-[A-Z0-9]+\.js)["\']`, returning
the captured filename and the remainder after the whole match (for
`findall`). -/
def chunkRefAt (cs : List Char) : Option (String × List Char) := do
  let cs ← class1 isChunkPreChar cs
  let cs ← lit "chunk-" cs
  let (nm, cs) ← captureRun isChunkNameChar 1 cs
  let cs ← lit ".js" cs
  match cs with
  | c :: rest =>
    if c == '"' || c == Char.ofNat 39 then some ("chunk-" ++ nm ++ ".js", rest) else none
  | [] => none

/-- One match of `href="(chunk-[^"]+\.js)"` (chunk names preloaded in the
HTML), returning capture and remainder. -/
def hrefChunkAt (cs : List Char) : Option (String × List Char) := do
  let cs ← lit "href=\"chunk-" cs
  let (body, cs) ← captureRun (fun c => c != '"') 4 cs
  let cs ← lit "\"" cs
  if endsWithJs body then some ("chunk-" ++ body, cs) else none

/-- `re.findall` driver: non-overlapping matches, scanning left to right and
resuming after each match; fuelled (the fuel `|s| + 1` always suffices since
every successful match consumes at least one character). -/
def findAllAux {α : Type} (m : List Char → Option (α × List Char)) :
    Nat → List Char → List α
  | 0, _ => []
  | _, [] => []
  | fuel + 1, c :: rest =>
    match m (c :: rest) with
    | some (a, rem) => a :: findAllAux m fuel rem
    | none => findAllAux m fuel rest

/-- `re.findall pattern s`. -/
def findAll {α : Type} (m : List Char → Option (α × List Char)) (s : String) :
    List α :=
  findAllAux m (s.length + 1) s.data

/-! ### Misc string helpers for the client -/

/-- Python `needle in hay` (substring containment). -/
def containsSub (hay needle : String) : Bool :=
  (searchPat (fun cs => if List.isPrefixOf needle.data cs then some () else none)
      hay.data).isSome

/-- `re.search(r"/user/confirm/([a-f0-9]{40,})", url)` used by `book_record`
to pull a confirmation token out of the confirm URL. -/
def confirmTokenAt (cs : List Char) : Option String := do
  let cs ← lit "/user/confirm/" cs
  let (tok, _) ← captureRun isHexChar 40 cs
  some tok

/-- Leftmost confirm-token match in a URL. -/
def confirmTokenOfUrl (u : String) : Option String :=
  searchPat confirmTokenAt u.data

/-- `re.search(r"/(\d{4,})", path)`: the company-id hint `_request` extracts
from an API path. -/
def cidHintAt (cs : List Char) : Option String := do
  let cs ← lit "/" cs
  let (ds, _) ← captureRun Char.isDigit 4 cs
  some ds

/-- `int` on a digit string. -/
def digitsToNat (cs : List Char) : Nat :=
  cs.foldl (fun acc c => acc * 10 + (c.toNat - 48)) 0

/-- `int(m.group(1))` of the company-id hint, when present. -/
def companyIdHint (path : String) : Option Nat :=
  (searchPat cidHintAt path.data).map (fun s => digitsToNat s.data)

/-- `list(dict.fromkeys(xs))`: order-preserving deduplication. -/
def dedupAux (seen : List String) : List String → List String
  | [] => []
  | x :: rest =>
    if seen.contains x then dedupAux seen rest else x :: dedupAux (x :: seen) rest

/-- Order-preserving deduplication keeping first occurrences. -/
def dedupStr (xs : List String) : List String :=
  dedupAux [] xs

/-- `str.lower()` (ASCII). -/
def strLower (s : String) : String :=
  String.mk (s.data.map Char.toLower)

/-! ### JSON values

Python dictionaries/JSON bodies are embedded as `JVal`; objects keep
insertion order, as Python dicts do. -/

inductive JVal where
  | null
  | bool (b : Bool)
  | num (n : Int)
  | str (s : String)
  | arr (xs : List JVal)
  | obj (kvs : List (String × JVal))

mutual

/-- Structural equality on JSON values (Python `==` on the JSON fragment we
model: none of the embedded code compares booleans with numbers). -/
def JVal.beq : JVal → JVal → Bool
  | .null, .null => true
  | .bool a, .bool b => a == b
  | .num a, .num b => a == b
  | .str a, .str b => a == b
  | .arr a, .arr b => JVal.beqList a b
  | .obj a, .obj b => JVal.beqKvs a b
  | _, _ => false

/-- Pointwise `JVal.beq` on lists. -/
def JVal.beqList : List JVal → List JVal → Bool
  | [], [] => true
  | x :: xs, y :: ys => JVal.beq x y && JVal.beqList xs ys
  | _, _ => false

/-- Pointwise `JVal.beq` on key-value lists. -/
def JVal.beqKvs : List (String × JVal) → List (String × JVal) → Bool
  | [], [] => true
  | (k1, v1) :: xs, (k2, v2) :: ys => k1 == k2 && JVal.beq v1 v2 && JVal.beqKvs xs ys
  | _, _ => false

end

/-- Python `d.get(k)` (with `None` for a missing key modelled as `none`);
`none` on non-dict values. -/
def JVal.get? : JVal → String → Option JVal
  | .obj kvs, k => kvs.lookup k
  | _, _ => none

/-- Python truthiness of a JSON value. -/
def JVal.truthy : JVal → Bool
  | .null => false
  | .bool b => b
  | .num n => n != 0
  | .str s => !s.data.isEmpty
  | .arr xs => !xs.isEmpty
  | .obj kvs => !kvs.isEmpty

/-- Python `d.get(k, default)`. -/
def jGetD (j : JVal) (k : String) (dflt : JVal) : JVal :=
  (j.get? k).getD dflt

/-- Python `d.get(k) or default` (falsy values fall through to the default). -/
def jGetOr (j : JVal) (k : String) (dflt : JVal) : JVal :=
  match j.get? k with
  | some v => if v.truthy then v else dflt
  | none => dflt

/-- Python `d[k] = v` on an insertion-ordered dict: replace in place if the
key exists, else append. -/
def upd {α : Type} (kvs : List (String × α)) (k : String) (v : α) :
    List (String × α) :=
  match kvs with
  | [] => [(k, v)]
  | (k1, v1) :: rest => if k1 == k then (k, v) :: rest else (k1, v1) :: upd rest k v

/-- `d[k] = v` on a `JVal` object (identity on non-objects, mirroring the
`isinstance(data, dict)` guards in the source). -/
def JVal.set : JVal → String → JVal → JVal
  | .obj kvs, k, v => .obj (upd kvs k v)
  | j, _, _ => j

/-- String payload of a JSON value (`""` for non-strings); used where the
source reads a field it expects to be a string. -/
def jStr : JVal → String
  | .str s => s
  | _ => ""

/-- Python `str(...)` of a scalar JSON value. -/
def pyStr : JVal → String
  | .null => "None"
  | .bool b => if b then "True" else "False"
  | .num n => toString n
  | .str s => s
  | .arr _ => ""
  | .obj _ => ""

/-- Python truthiness of a plain string. -/
def strEmpty (s : String) : Bool :=
  s.data.isEmpty

/-! ### Network, events and client state

A `Web` maps URLs to responses; a missing entry or a `none` entry models a
raised transport exception, `some (status, body)` a completed HTTP exchange.
`Ev` records, in order, rate-limiter acquisitions and issued HTTP requests. -/

inductive Ev where
  | acq
  | http (method url : String)
deriving DecidableEq, Repr

abbrev Web := List (String × Option (Nat × String))

/-- Issue a GET/POST: look the URL up in the fixture web. -/
def fetch (web : Web) (url : String) : Option (Nat × String) :=
  (web.lookup url).getD none

/-- `BookingClient._url`. -/
def urlOf (domain path : String) : String :=
  if List.isPrefixOf "http".data path.data then path
  else "https://" ++ domain ++ path

/-- The mutable fields of `BookingClient` that the claims are about:
the process-level token from `YCLIENTS_PARTNER_TOKEN` (`""` when not
configured) and the per-domain caches. -/
structure BCState where
  partner_token : String
  partner_tokens : List (String × String)
  app_configs : List (String × List (String × String))
  user_tokens : List (String × String)
deriving DecidableEq, Repr

/-- `BookingClient._resolve_partner_token`: per-domain token first, else the
configured process-level token (`or` falls through falsy values). -/
def resolvePartnerToken (st : BCState) (domain : String) : String :=
  match st.partner_tokens.lookup domain with
  | some t => if strEmpty t then st.partner_token else t
  | none => st.partner_token

/-- `BookingClient._auth_header`. -/
def authHeader (st : BCState) (domain : String) : String :=
  let token := resolvePartnerToken st domain
  let userToken := (st.user_tokens.lookup domain).getD ""
  if strEmpty token then ""
  else if !strEmpty userToken then "Bearer " ++ token ++ ", User " ++ userToken
  else "Bearer " ++ token

/-! ### `_ensure_partner_token` (client.py lines 215–360) -/

/-- Step 1 of the scan: fetch the booking HTML, trying each candidate path in
order and stopping at the first status-200 response; every attempt (even one
that raises) is an HTTP event. -/
def fetchHtmlLoop (web : Web) (domain : String) :
    List String → Option String × List Ev
  | [] => (none, [])
  | p :: rest =>
    let url := urlOf domain p
    match fetch web url with
    | some (200, text) => (some text, [Ev.http "GET" url])
    | _ =>
      let (r, tr) := fetchHtmlLoop web domain rest
      (r, Ev.http "GET" url :: tr)

/-- Result of `scan_chunk`: the captured token if one of the patterns
matched, the app config extracted from the same chunk (only when the token
matched, the config was still missing for the domain, and the extraction
found at least one key), and the transitive chunk imports collected when no
token matched. -/
structure ScanOut where
  token? : Option String
  cfg? : Option (List (String × String))
  transImports : List String

/-- `scan_chunk` (client.py lines 320–343), minus the GET event which the
caller records. -/
def scanChunk (web : Web) (domain : String) (cfgNeeded : Bool)
    (chunkPath : String) : ScanOut :=
  match fetch web (urlOf domain ("/" ++ chunkPath)) with
  | none => ⟨none, none, []⟩
  | some (_, js) =>
    match partnerTokenSearch js with
    | some tok =>
      let cfg :=
        if cfgNeeded then
          (let c := appCfgExtract js
           if c.isEmpty then none else some c)
        else none
      ⟨some tok, cfg, []⟩
    | none => ⟨none, none, findAll chunkRefAt js⟩

/-- The chunk-scanning loop (`for chunk_path in ...: result = await
scan_chunk(...)`): stops at the first token, concatenates the transitive
imports collected from non-matching chunks, and records one GET event per
scanned chunk. -/
def scanChunkLoop (web : Web) (domain : String) (cfgNeeded : Bool) :
    List String →
      Option (String × Option (List (String × String))) × List String × List Ev
  | [] => (none, [], [])
  | c :: rest =>
    let ev := Ev.http "GET" (urlOf domain ("/" ++ c))
    let out := scanChunk web domain cfgNeeded c
    match out.token? with
    | some t => (some (t, out.cfg?), [], [ev])
    | none =>
      let (r, timps, evs) := scanChunkLoop web domain cfgNeeded rest
      (r, out.transImports ++ timps, ev :: evs)

/-- Commit a successful chunk scan: store the app config (when one was
extracted) and cache the discovered token for the domain. -/
def applyFound (st : BCState) (domain : String)
    (found : String × Option (List (String × String))) : BCState :=
  let st1 :=
    match found.2 with
    | some cfg => { st with app_configs := upd st.app_configs domain cfg }
    | none => st
  { st1 with partner_tokens := upd st1.partner_tokens domain found.1 }

/-- Steps 1–4 of the discovery scan (client.py lines 249–360): HTML fetch and
direct match, main bundle fetch and match, direct chunk scan, then the
not-yet-tried transitive chunks. -/
def scanForToken (web : Web) (st : BCState) (domain : String)
    (companyId : Option Nat) : BCState × List Ev :=
  let htmlPaths :=
    (match companyId with
     | some cid => if cid == 0 then [] else ["/company/" ++ toString cid]
     | none => []) ++ ["/"]
  let htmlAndTrace := fetchHtmlLoop web domain htmlPaths
  let tr1 := htmlAndTrace.2
  let html := htmlAndTrace.1.getD ""
  if strEmpty html then (st, tr1)
  else
    match partnerTokenSearch html with
    | some tok => ({ st with partner_tokens := upd st.partner_tokens domain tok }, tr1)
    | none =>
      match searchPat mainJsAt html.data with
      | none => (st, tr1)
      | some mjsName =>
        let mjsUrl := urlOf domain ("/" ++ mjsName)
        let tr2 := tr1 ++ [Ev.http "GET" mjsUrl]
        match fetch web mjsUrl with
        | none => (st, tr2)
        | some (_, mainJs) =>
          match partnerTokenSearch mainJs with
          | some tok =>
            ({ st with partner_tokens := upd st.partner_tokens domain tok }, tr2)
          | none =>
            let allChunks :=
              dedupStr (findAll hrefChunkAt html ++ findAll chunkRefAt mainJs)
            let cfgNeeded := (st.app_configs.lookup domain).isNone
            match scanChunkLoop web domain cfgNeeded allChunks with
            | (some found, _, evs) => (applyFound st domain found, tr2 ++ evs)
            | (none, transRaw, evs) =>
              let transChunks :=
                (dedupStr transRaw).filter (fun c => !allChunks.contains c)
              match scanChunkLoop web domain cfgNeeded transChunks with
              | (some found, _, evs2) =>
                (applyFound st domain found, tr2 ++ evs ++ evs2)
              | (none, _, evs2) => (st, tr2 ++ evs ++ evs2)

/-- `_ensure_partner_token` for a domain other than the shared API host:
cached-token guard, then the configured-token shortcut, then the scan. -/
def ensureAux (web : Web) (st : BCState) (domain : String)
    (companyId : Option Nat) : BCState × List Ev :=
  if (st.partner_tokens.lookup domain).isSome then (st, [])
  else if !strEmpty st.partner_token then
    ({ st with partner_tokens := upd st.partner_tokens domain st.partner_token }, [])
  else scanForToken web st domain companyId

/-- `BookingClient._ensure_partner_token` (client.py lines 215–360),
including the special branch for the shared API host with its bootstrap
recursion into one statically-known tenant domain. -/
def ensurePartnerToken (web : Web) (st : BCState) (domain : String)
    (companyId : Option Nat) : BCState × List Ev :=
  if (st.partner_tokens.lookup domain).isSome then (st, [])
  else if domain == "api.yclients.com" then
    if !strEmpty st.partner_token then
      ({ st with partner_tokens := upd st.partner_tokens domain st.partner_token }, [])
    else
      match st.partner_tokens with
      | (_, t0) :: _ =>
        ({ st with partner_tokens := upd st.partner_tokens domain t0 }, [])
      | [] =>
        let r := ensureAux web st "n864017.yclients.com" (some 806724)
        match r.1.partner_tokens.lookup "n864017.yclients.com" with
        | some t =>
          ({ r.1 with partner_tokens := upd r.1.partner_tokens domain t }, r.2)
        | none => r
  else ensureAux web st domain companyId

/-! ### `BookingClient._request` response handling (client.py lines 404–438) -/

/-- Outcome of the curl session call inside `_request`: either the raised
exception message (the source catches every `Exception`), or a completed
response with its status, raw text, parsed JSON body (`none` when
`response.json()` raises) and parsed `X-App-Security-Level` header (`none`
when the header is absent or `json.loads` on it fails). -/
inductive BResp where
  | exn (msg : String)
  | resp (status : Nat) (text : String) (json? : Option JVal) (sec? : Option JVal)

/-- Lines 404–438 of `_request`: exception-to-value conversion, body parse
fallback, `_status_code` annotation for non-2xx, `_security_level` capture. -/
def bookingProcessResponse : BResp → JVal
  | .exn msg =>
    if containsSub (strLower msg) "timed out" || containsSub (strLower msg) "timeout" then
      .obj [("error", .bool true), ("message", .str "Request timed out")]
    else
      .obj [("error", .bool true), ("message", .str ("Connection failed: " ++ msg))]
  | .resp status text json? sec? =>
    let data := json?.getD (.obj [("data", .str (text.take 2000))])
    let data :=
      if 400 ≤ status then
        match data with
        | .obj kvs => .obj (upd kvs "_status_code" (.num (status : Int)))
        | _ => .obj [("error", .bool true), ("_status_code", .num (status : Int))]
      else data
    match sec? with
    | some sec =>
      match data with
      | .obj kvs => .obj (upd kvs "_security_level" sec)
      | d => d
    | none => data

/-- `BookingClient._request` (client.py lines 388–438): company-id hint from
the path, credential ensure, the HTTP call (one event), response
post-processing. -/
def bookingRequest (web : Web) (st : BCState) (domain method path : String)
    (net : BResp) : JVal × BCState × List Ev :=
  let r := ensurePartnerToken web st domain (companyIdHint path)
  (bookingProcessResponse net, r.1, r.2 ++ [Ev.http method (urlOf domain path)])

/-! ### `YClientsClient.request` (client.py lines 87–144) -/

/-- Outcome of one `httpx` attempt: the exceptions distinguished by the
source, any other `httpx.HTTPError`, or a completed response. -/
inductive HResp where
  | timeout (msg : String)
  | connectError (msg : String)
  | otherError (msg : String)
  | resp (status : Nat) (text : String) (json? : Option JVal)

/-- The REST passthrough talks to `config.base_url`. -/
def ycBaseUrl : String := "https://api.yclients.com"

/-- `{"error": True, "status_code": 0, "message": msg}`. -/
def ycErrorVal (msg : String) : JVal :=
  .obj [("error", .bool true), ("status_code", .num 0), ("message", .str msg)]

/-- Lines 130–144: non-2xx annotation with parsed detail, else the parsed
body with raw-text fallback. -/
def ycFinish (status : Nat) (text : String) (json? : Option JVal) : JVal :=
  if 400 ≤ status then
    .obj [("error", .bool true), ("status_code", .num (status : Int)),
          ("detail", json?.getD (.obj [("status", .num (status : Int))]))]
  else json?.getD (.obj [("data", .str (text.take 2000))])

/-- `str(exc)` for the retry branch `except httpx.HTTPError`. -/
def hMsg : HResp → String
  | .timeout m => m
  | .connectError m => m
  | .otherError m => m
  | .resp _ _ _ => ""

/-- `YClientsClient.request`: limiter acquisition, one attempt, a single
retry after a 429 (with a second acquisition).  `Except.error` is an
exception the source does not catch (any `httpx` error other than timeout
and connection failure on the first attempt) propagating to the caller. -/
def ycRequest (method path : String) (att1 att2 : HResp) :
    Except String JVal × List Ev :=
  let url := ycBaseUrl ++ path
  match att1 with
  | .timeout _ => (.ok (ycErrorVal "Request timed out"), [Ev.acq, Ev.http method url])
  | .connectError m =>
    (.ok (ycErrorVal ("Connection failed: " ++ m)), [Ev.acq, Ev.http method url])
  | .otherError m => (.error m, [Ev.acq, Ev.http method url])
  | .resp status text json? =>
    if status == 429 then
      let tr := [Ev.acq, Ev.http method url, Ev.acq, Ev.http method url]
      match att2 with
      | .resp s2 t2 j2 => (.ok (ycFinish s2 t2 j2), tr)
      | e => (.ok (ycErrorVal (hMsg e)), tr)
    else (.ok (ycFinish status text json?), [Ev.acq, Ev.http method url])

/-! ### The confirmation-state-machine calls (client.py lines 983–1083)

`user_confirm_start_check`, `user_confirm_check_captcha` and
`user_confirm_check_code` share one response-handling shape. -/

/-- Outcome of the one-shot `httpx` POST of the confirm operations. -/
inductive CResp where
  | timeout
  | connectError (msg : String)
  | resp (status : Nat) (text : String) (json? : Option JVal)

/-- Response handling shared by the three `user_confirm_*` operations. -/
def userConfirmProcess : CResp → JVal
  | .timeout => .obj [("error", .bool true), ("message", .str "Request timed out")]
  | .connectError m =>
    .obj [("error", .bool true), ("message", .str ("Connection failed: " ++ m))]
  | .resp status text json? =>
    let data := json?.getD (.obj [("data", .str (text.take 2000))])
    if 400 ≤ status then
      match data with
      | .obj kvs => .obj (upd kvs "_status_code" (.num (status : Int)))
      | _ => .obj [("error", .bool true), ("_status_code", .num (status : Int))]
    else data

/-! ### `book_record` 412 handling (client.py lines 945–981) -/

/-- The 412 branch of `book_record`: extract the security payload (header
capture preferred, JSON `errors` field as fallback), the reCAPTCHA site key
and the confirmation URL/token, recovering the token from the URL path when
it is not given directly. -/
def bookRecord412 (result : JVal) : JVal :=
  let security0 := jGetOr result "_security_level" (.obj [])
  let security :=
    if security0.truthy then security0
    else jGetOr (jGetOr result "errors" (.obj [])) "X-App-Security-Level" (.obj [])
  let recaptchaKey := jStr (jGetD (jGetOr security "recaptcha_v3" (.obj [])) "key" (.str ""))
  let userConfirm := jGetOr security "user_confirm" (.obj [])
  let userConfirmUrl := jStr (jGetD userConfirm "url" (.str ""))
  let tok0 := jStr (jGetD userConfirm "token" (.str ""))
  let userConfirmToken :=
    if strEmpty tok0 && !strEmpty userConfirmUrl then
      match confirmTokenOfUrl userConfirmUrl with
      | some t => t
      | none => tok0
    else tok0
  .obj [("error", .bool true),
        ("requires_captcha", .bool true),
        ("recaptcha_v3_key", if strEmpty recaptchaKey then .null else .str recaptchaKey),
        ("user_confirm_url", if strEmpty userConfirmUrl then .null else .str userConfirmUrl),
        ("user_confirm_token",
          if strEmpty userConfirmToken then .null else .str userConfirmToken),
        ("message", .str ("YCLIENTS requires phone verification for booking."
          ++ (if strEmpty userConfirmToken then ""
              else " Call user_confirm_start_check with token: " ++ userConfirmToken)
          ++ (if strEmpty recaptchaKey then ""
              else " reCAPTCHA site key: " ++ recaptchaKey)))]

/-- The tail of `book_record`: a result whose `_status_code` is 412 enters
the confirmation branch, anything else is returned unchanged. -/
def bookRecordResult (result : JVal) : JVal :=
  match result.get? "_status_code" with
  | some (.num 412) => bookRecord412 result
  | _ => result

/-! ### `search_companies` concurrent-merge (client.py lines 476–497) -/

/-- An `asyncio.gather(..., return_exceptions=True)` slot. -/
abbrev TaskResult := Except String JVal

/-- Elements of a JSON array (`[]` for anything else). -/
def jArrOf : JVal → List JVal
  | .arr xs => xs
  | _ => []

/-- Python `x or []` followed by iteration. -/
def jvalListOr (v : JVal) : List JVal :=
  if v.truthy then jArrOf v else []

/-- Membership in the `seen_ids` set (Python `in`). -/
def jvalMem (x : JVal) : List JVal → Bool
  | [] => false
  | y :: ys => JVal.beq x y || jvalMem x ys

/-- `company.get("id")`. -/
def idOf (c : JVal) : JVal :=
  jGetD c "id" .null

/-- The inner loop over one task result's `data`: keep companies with a
truthy, not-yet-seen id. -/
def addCompanies : List JVal → List JVal → List JVal → List JVal × List JVal
  | [], seen, matched => (seen, matched)
  | c :: rest, seen, matched =>
    if (idOf c).truthy && !jvalMem (idOf c) seen then
      addCompanies rest (idOf c :: seen) (matched ++ [c])
    else addCompanies rest seen matched

/-- The merge loop over all gathered task results: failed tasks are skipped,
successful ones contribute their `data` entries. -/
def mergeLoop : List TaskResult → List JVal → List JVal → List JVal × List JVal
  | [], seen, matched => (seen, matched)
  | .error _ :: rest, seen, matched => mergeLoop rest seen matched
  | .ok r :: rest, seen, matched =>
    let p := addCompanies (jArrOf (jGetD r "data" (.arr []))) seen matched
    mergeLoop rest p.1 p.2

/-- Lines 484–497: merge the per-category scan results and truncate. -/
def searchCompaniesMerge (results : List TaskResult) (count : Nat) : JVal :=
  let p := mergeLoop results [] []
  .obj [("success", .bool true), ("count", .num (p.2.length : Int)),
        ("data", .arr (p.2.take count))]

/-! ### `_parse_attendances` (client.py lines 628–729) -/

/-- The `included` lookup table, keyed by `(type, str(id))`; the type
component is kept as a raw JSON value (Python keys it unstringified). -/
abbrev IncMap := List ((JVal × String) × JVal)

/-- Dict insert for the included-resource table (later items overwrite). -/
def incUpd (m : IncMap) (k : JVal × String) (v : JVal) : IncMap :=
  match m with
  | [] => [(k, v)]
  | ((kt, ki), v0) :: rest =>
    if JVal.beq kt k.1 && ki == k.2 then (k, v) :: rest
    else ((kt, ki), v0) :: incUpd rest k v

/-- Lookup in the included-resource table. -/
def incGet (m : IncMap) (k : JVal × String) : Option JVal :=
  match m with
  | [] => none
  | ((kt, ki), v) :: rest =>
    if JVal.beq kt k.1 && ki == k.2 then some v else incGet rest k

/-- The key `(item.get("type", ""), str(item.get("id", "")))`. -/
def refKey (ref : JVal) : JVal × String :=
  (jGetD ref "type" (.str ""), pyStr (jGetD ref "id" (.str "")))

/-- `for item in raw.get("included") or []: inc_map[key] = item`. -/
def buildIncMap : List JVal → IncMap → IncMap
  | [], m => m
  | item :: rest, m => buildIncMap rest (incUpd m (refKey item) item)

/-- `v is None`. -/
def JVal.isNull : JVal → Bool
  | .null => true
  | _ => false

/-- `x or None`. -/
def jvalOrNull (v : JVal) : JVal :=
  if v.truthy then v else .null

/-- Compact one attendance service item (lines 685–696): title always,
cost/price when present (`is not None`), discount when truthy. -/
def svcEntry (si : JVal) : JVal :=
  let a := jGetD si "attributes" (.obj [])
  let svc : List (String × JVal) := [("title", jGetD a "title" (.str ""))]
  let cost := jGetD a "cost" .null
  let svc := if cost.isNull then svc else upd svc "cost" cost
  let disc := jGetD a "discount" .null
  let svc := if disc.truthy then upd svc "discount" disc else svc
  let price := jGetD a "price_min" .null
  let svc := if price.isNull then svc else upd svc "price" price
  .obj svc

/-- The `attendance_service_items` resolution loop: unmatched references are
skipped. -/
def serviceItemsLoop (inc : IncMap) : List JVal → List JVal
  | [] => []
  | ref :: rest =>
    match incGet inc (refKey ref) with
    | none => serviceItemsLoop inc rest
    | some si => svcEntry si :: serviceItemsLoop inc rest

/-- Staff resolution for one record (lines 699–708): first element when the
reference is a list, then an `included` lookup; `none` when anything is
missing. -/
def staffResolve (inc : IncMap) (staffRef0 : JVal) : Option (String × String) :=
  let sr? :=
    match staffRef0 with
    | .arr xs => xs.head?
    | v => some v
  match sr? with
  | none => none
  | some sr =>
    if sr.truthy then
      match incGet inc (refKey sr) with
      | none => none
      | some stf =>
        let a := jGetD stf "attributes" (.obj [])
        some (jStr (jGetD a "name" (.str "")), jStr (jGetD a "specialization" (.str "")))
    else none

/-- The loop over `relationships.records.data` (lines 674–708), threading
the services accumulator and the staff fields. -/
def recRefsLoop (inc : IncMap) :
    List JVal → List JVal → String → String → List JVal × String × String
  | [], services, sn, sp => (services, sn, sp)
  | ref :: rest, services, sn, sp =>
    match incGet inc (refKey ref) with
    | none => recRefsLoop inc rest services sn sp
    | some rec =>
      let recRels := jGetD rec "relationships" (.obj [])
      let siRefs :=
        jvalListOr (jGetD (jGetD recRels "attendance_service_items" (.obj [])) "data" .null)
      let services1 := services ++ serviceItemsLoop inc siRefs
      let staffRef0 := jGetD (jGetD recRels "staff" (.obj [])) "data" .null
      if staffRef0.truthy && strEmpty sn then
        match staffResolve inc staffRef0 with
        | some (n, s) => recRefsLoop inc rest services1 n s
        | none => recRefsLoop inc rest services1 sn sp
      else recRefsLoop inc rest services1 sn sp

/-- `status_map.get(attendance_status, str(attendance_status))`. -/
def statusLabel (v : JVal) : String :=
  match v with
  | .num 0 => "ожидает"
  | .num 1 => "подтверждён"
  | .num 2 => "пришёл"
  | .num (-1) => "не пришёл"
  | _ => pyStr v

/-- The `datetime` attribute of an attendance. -/
def attDatetime (r : JVal) : String :=
  jStr (jGetD (jGetD r "attributes" (.obj [])) "datetime" (.str ""))

/-- The flattened output entry for one attendance (lines 710–726). -/
def buildEntry (inc : IncMap) (r : JVal) : JVal :=
  let attrs := jGetD r "attributes" (.obj [])
  let rels := jGetD r "relationships" (.obj [])
  let recRefs := jvalListOr (jGetD (jGetD rels "records" (.obj [])) "data" .null)
  let res := recRefsLoop inc recRefs [] "" ""
  let duration :=
    match jGetOr attrs "duration" (.num 0) with
    | .num n => n
    | _ => 0
  .obj [("id", jGetD r "id" .null),
        ("datetime", .str (attDatetime r)),
        ("create_date", jGetD attrs "create_date" (.str "")),
        ("services", .arr res.1),
        ("staff", .str res.2.1),
        ("staff_specialization", .str res.2.2),
        ("status", .str (statusLabel (jGetD attrs "attendance_status" .null))),
        ("duration_min", .num (Int.fdiv duration 60)),
        ("paid_amount", jGetD attrs "paid_amount" .null),
        ("is_prepaid", jGetD attrs "is_prepaid" (.bool false)),
        ("activity_id", jvalOrNull (jGetD attrs "activity_id" .null)),
        ("comment", jvalOrNull (jGetD attrs "comment" .null)),
        ("is_deleted", jGetD attrs "is_deleted" (.bool false)),
        ("can_cancel", jGetD attrs "is_delete_record_allowed" (.bool false)),
        ("can_change", jGetD attrs "is_change_record_allowed" (.bool false))]

/-- The optional date-range filter (lines 662–665): string comparison on the
10-character ISO date prefix; a falsy bound means no filtering. -/
def dateKeep (dt : String) (dateFrom dateTo : Option String) : Bool :=
  let datePart := dt.take 10
  (match dateFrom with
   | some f => strEmpty f || !decide (datePart < f)
   | none => true) &&
  (match dateTo with
   | some t => strEmpty t || !decide (t < datePart)
   | none => true)

/-- The top-level loop of `_parse_attendances`: attendances without a truthy
`datetime` are skipped, then the date filter, then the flattening. -/
def parseLoop (inc : IncMap) (dateFrom dateTo : Option String) :
    List JVal → List JVal
  | [] => []
  | r :: rest =>
    let dt := attDatetime r
    if strEmpty dt then parseLoop inc dateFrom dateTo rest
    else if !dateKeep dt dateFrom dateTo then parseLoop inc dateFrom dateTo rest
    else buildEntry inc r :: parseLoop inc dateFrom dateTo rest

/-- `BookingClient._parse_attendances` (client.py lines 628–729). -/
def parseAttendances (raw : JVal) (dateFrom dateTo : Option String) : JVal :=
  match raw.get? "data" with
  | some (.arr records) =>
    let inc := buildIncMap (jvalListOr (jGetD raw "included" .null)) []
    let res := parseLoop inc dateFrom dateTo records
    .obj [("success", .bool true), ("total", .num (res.length : Int)),
          ("records", .arr res)]
  | _ => raw

/-! ### `RateLimiter` (client.py lines 37–57)

The float arithmetic of the token bucket is idealized over `ℚ`. -/

/-- The token bucket: budget per second, current tokens, last refill time. -/
structure LimiterState where
  perSec : ℚ
  tokens : ℚ
  last : ℚ

/-- `RateLimiter.acquire` as a pure step at monotonic time `now`: refill in
proportion to elapsed time (capped at the budget), then either consume one
token and proceed immediately, or sleep `(1 - tokens)/per_sec` and zero the
bucket. -/
def acquireStep (s : LimiterState) (now : ℚ) : LimiterState × ℚ :=
  let tokens := min s.perSec (s.tokens + (now - s.last) * s.perSec)
  if tokens < 1 then
    ({ s with tokens := 0, last := now }, (1 - tokens) / s.perSec)
  else
    ({ s with tokens := tokens - 1, last := now }, 0)

/-- `true` when every HTTP event in the trace is preceded by a rate-limiter
acquisition. -/
def guardedAux : Bool → List Ev → Bool
  | _, [] => true
  | _, Ev.acq :: rest => guardedAux true rest
  | sawAcq, Ev.http _ _ :: rest => sawAcq && guardedAux sawAcq rest

/-- Limiter-admission predicate on traces. -/
def limiterGuarded (tr : List Ev) : Bool :=
  guardedAux false tr

/-! ### The synthetic discovery fixture for the transitive-chunk claim -/

/-- Tenant domain of the fixture. -/
def fxDomain : String := "demo.yclients.com"

/-- Booking page: references the main bundle, carries no token and no
preloaded chunk. -/
def fxHtml : String :=
  "<html><head><script src=\"main-ABCD.js\"></script></head><body>book</body></html>"

/-- Main bundle: imports chunk AAAA, no token. -/
def fxMainJs : String :=
  "import\"./chunk-AAAA.js\";run();"

/-- Direct chunk: imports chunk BBBB (one transitive hop), no token. -/
def fxChunkA : String :=
  "import\"./chunk-BBBB.js\";helper();"

/-- Transitive chunk: carries the partner token. -/
def fxChunkB : String :=
  "e=o.assign(e,n);apiToken:\"Bearer FIXTOKEN12345\";"

/-- The fixture web: the company page answers 200, the root is forbidden,
and the three bundles resolve. -/
def fxWeb : Web :=
  [ ("https://demo.yclients.com/company/555555", some (200, fxHtml)),
    ("https://demo.yclients.com/", some (403, "")),
    ("https://demo.yclients.com/main-ABCD.js", some (200, fxMainJs)),
    ("https://demo.yclients.com/chunk-AAAA.js", some (200, fxChunkA)),
    ("https://demo.yclients.com/chunk-BBBB.js", some (200, fxChunkB)) ]

/-- A client state with nothing configured and nothing cached. -/
def st0 : BCState := ⟨"", [], [], []⟩

example :
    ensurePartnerToken fxWeb st0 fxDomain (some 555555) =
      ({ st0 with partner_tokens := [(fxDomain, "FIXTOKEN12345")] },
       [Ev.http "GET" "https://demo.yclients.com/company/555555",
        Ev.http "GET" "https://demo.yclients.com/main-ABCD.js",
        Ev.http "GET" "https://demo.yclients.com/chunk-AAAA.js",
        Ev.http "GET" "https://demo.yclients.com/chunk-BBBB.js"]) := by decide

/-! ### Basic lemmas about the dictionary and scanning helpers -/

theorem lookup_cons {α : Type} (k1 : String) (v1 : α) (t : List (String × α))
    (k : String) :
    List.lookup k ((k1, v1) :: t) = if k = k1 then some v1 else List.lookup k t := by
  by_cases h : k = k1
  · subst h; simp [List.lookup]
  · have hb : (k == k1) = false := beq_eq_false_iff_ne.mpr h
    simp [List.lookup, hb, h]

theorem lookup_upd {α : Type} (kvs : List (String × α)) (k k' : String) (v : α) :
    (upd kvs k v).lookup k' = if k' = k then some v else kvs.lookup k' := by
  induction kvs with
  | nil => simp [upd, lookup_cons]
  | cons p t ih =>
    obtain ⟨k1, v1⟩ := p
    by_cases h1 : k1 = k
    · subst h1
      simp only [upd, beq_self_eq_true, if_true]
      rw [lookup_cons, lookup_cons]
      by_cases h2 : k' = k1 <;> simp [h2]
    · have hb : (k1 == k) = false := beq_eq_false_iff_ne.mpr h1
      simp only [upd, hb, Bool.false_eq_true, if_false]
      rw [lookup_cons, lookup_cons, ih]
      by_cases h2 : k' = k1 <;> by_cases h3 : k' = k <;> simp_all

theorem mem_upd {α : Type} (kvs : List (String × α)) (k : String) (v : α)
    (p : String × α) (hp : p ∈ upd kvs k v) : p ∈ kvs ∨ p = (k, v) := by
  induction kvs with
  | nil => simpa [upd] using hp
  | cons q t ih =>
    obtain ⟨k1, v1⟩ := q
    by_cases h1 : k1 = k
    · subst h1
      simp only [upd, beq_self_eq_true, if_true] at hp
      rcases List.mem_cons.mp hp with h | h
      · right; exact h
      · left; exact List.mem_cons_of_mem _ h
    · have hb : (k1 == k) = false := beq_eq_false_iff_ne.mpr h1
      simp only [upd, hb, Bool.false_eq_true, if_false] at hp
      rcases List.mem_cons.mp hp with h | h
      · left; simp [h]
      · rcases ih h with h2 | h2
        · left; exact List.mem_cons_of_mem _ h2
        · right; exact h2

theorem mem_of_lookup {α : Type} (kvs : List (String × α)) (k : String) (v : α)
    (h : kvs.lookup k = some v) : (k, v) ∈ kvs := by
  induction kvs with
  | nil => simp [List.lookup] at h
  | cons p t ih =>
    obtain ⟨k1, v1⟩ := p
    rw [lookup_cons] at h
    by_cases hk : k = k1
    · rw [if_pos hk] at h
      cases h
      simp [hk]
    · rw [if_neg hk] at h
      exact List.mem_cons_of_mem _ (ih h)

theorem strEmpty_false_of_ne (s : String) (h : s ≠ "") : strEmpty s = false := by
  cases s with
  | mk data =>
    cases data with
    | nil => exact absurd rfl h
    | cons c cs => simp [strEmpty]

theorem ne_of_strEmpty_false (s : String) (h : strEmpty s = false) : s ≠ "" := by
  intro he
  subst he
  simp [strEmpty] at h

theorem searchPat_prop {α : Type} (m : List Char → Option α) (P : α → Prop)
    (hm : ∀ cs r, m cs = some r → P r) :
    ∀ cs r, searchPat m cs = some r → P r := by
  intro cs
  induction cs with
  | nil => intro r h; exact hm [] r h
  | cons c rest ih =>
    intro r h
    simp only [searchPat] at h
    cases hm2 : m (c :: rest) with
    | some r2 => rw [hm2] at h; cases h; exact hm _ _ hm2
    | none => rw [hm2] at h; exact ih r h

theorem confirmTokenAt_long (cs : List Char) (r : String)
    (h : confirmTokenAt cs = some r) : 40 ≤ r.length := by
  simp only [confirmTokenAt, Option.bind_eq_bind, bind, Option.bind] at h
  cases h1 : lit "/user/confirm/" cs with
  | none => rw [h1] at h; cases h
  | some cs1 =>
    rw [h1] at h
    simp only [captureRun] at h
    by_cases h2 : 40 ≤ (cs1.takeWhile isHexChar).length
    · rw [if_pos h2] at h
      cases h
      simpa [String.length] using h2
    · rw [if_neg h2] at h
      cases h

theorem confirmTokenOfUrl_long (u : String) (r : String)
    (h : confirmTokenOfUrl u = some r) : 40 ≤ r.length := by
  exact searchPat_prop confirmTokenAt (fun r2 => 40 ≤ r2.length) confirmTokenAt_long u.data r h

theorem strEmpty_false_of_long (s : String) (h : 1 ≤ s.length) : strEmpty s = false := by
  cases s with
  | mk data =>
    cases data with
    | nil => simp [String.length] at h
    | cons c cs => simp [strEmpty]

/-! ### Discovery-cache lemmas -/

theorem ensure_cached_noop (web : Web) (st : BCState) (d : String) (cid : Option Nat)
    (h : (st.partner_tokens.lookup d).isSome = true) :
    ensurePartnerToken web st d cid = (st, []) := by
  unfold ensurePartnerToken
  rw [if_pos h]

theorem applyFound_tokens (st : BCState) (dom : String)
    (found : String × Option (List (String × String))) :
    (applyFound st dom found).partner_tokens = upd st.partner_tokens dom found.1 := by
  obtain ⟨t, cfg⟩ := found
  cases cfg <;> rfl

theorem scan_tokens (web : Web) (st : BCState) (d : String) (cid : Option Nat) :
    (scanForToken web st d cid).1.partner_tokens = st.partner_tokens ∨
    ∃ t, (scanForToken web st d cid).1.partner_tokens = upd st.partner_tokens d t := by
  unfold scanForToken
  dsimp only
  split
  · exact Or.inl rfl
  · split
    · exact Or.inr ⟨_, rfl⟩
    · split
      · exact Or.inl rfl
      · split
        · exact Or.inl rfl
        · split
          · exact Or.inr ⟨_, rfl⟩
          · split
            · exact Or.inr ⟨_, applyFound_tokens _ _ _⟩
            · split
              · exact Or.inr ⟨_, applyFound_tokens _ _ _⟩
              · exact Or.inl rfl

theorem ensureAux_preserve (web : Web) (st : BCState) (d : String) (cid : Option Nat)
    (dom : String) (t : String) (h : st.partner_tokens.lookup dom = some t) :
    (ensureAux web st d cid).1.partner_tokens.lookup dom = some t := by
  unfold ensureAux
  split
  · exact h
  · rename_i h1
    have hdd : dom ≠ d := by
      intro he
      subst he
      exact h1 (by simp [h])
    split
    · dsimp only
      rw [lookup_upd, if_neg hdd]
      exact h
    · rcases scan_tokens web st d cid with h2 | ⟨t2, h2⟩
      · rw [h2]; exact h
      · rw [h2, lookup_upd, if_neg hdd]; exact h

theorem ensure_preserve (web : Web) (st : BCState) (d : String) (cid : Option Nat)
    (dom : String) (t : String) (h : st.partner_tokens.lookup dom = some t) :
    (ensurePartnerToken web st d cid).1.partner_tokens.lookup dom = some t := by
  unfold ensurePartnerToken
  split
  · exact h
  · rename_i h1
    have hdd : dom ≠ d := by
      intro he
      subst he
      exact h1 (by simp [h])
    split
    · split
      · dsimp only
        rw [lookup_upd, if_neg hdd]
        exact h
      · split
        · dsimp only
          rw [lookup_upd, if_neg hdd]
          exact h
        · rename_i hnil
          rw [hnil] at h
          simp [List.lookup] at h
    · exact ensureAux_preserve web st d cid dom t h

/-! ### Further discovery fixtures -/

/-- A booking page that inlines the token directly in the HTML. -/
def fxHtmlTok : String := "<p>apiToken:\"Bearer HTMLTOKEN999\"</p>"

/-- Web whose token sits in the HTML itself (discovery step 2). -/
def fxWebHtmlTok : Web := [("https://demo.yclients.com/", some (200, fxHtmlTok))]

/-- A main bundle that carries the token itself. -/
def fxMainTok : String := "cfg=apiToken:\"Bearer MAINTOKEN999\";"

/-- Web whose token sits in the main bundle (discovery step 3). -/
def fxWebMainTok : Web :=
  [ ("https://demo.yclients.com/", some (200, fxHtml)),
    ("https://demo.yclients.com/main-ABCD.js", some (200, fxMainTok)) ]

/-- A web on which every discovery attempt fails (the only page answers
403, so no credential can ever be cached). -/
def cexWeb : Web := [("https://demo.example/", some (403, ""))]

/-- A client state with a globally-configured partner token. -/
def c7State : BCState := ⟨"GLOBALTOKEN1", [], [], []⟩

/-- C1: for a domain with no configured global credential and no cached
credential, `_ensure_partner_token` tries the discovery steps in the fixed
order — HTML direct match, then the main-*.js bundle, then the collected
chunks, then the not-yet-tried transitive chunks — stopping at the first
pattern match.  On the fixture whose token lives only in a one-hop
transitive chunk, discovery fetches exactly the HTML page, the main bundle,
the direct chunk and the transitive chunk in that order, succeeds, and
caches exactly that token for the domain; on fixtures whose token appears
in the HTML or in the main bundle, discovery stops right there. -/
theorem c1_discovery_order_transitive_chunk :
    (ensurePartnerToken fxWeb st0 fxDomain (some 555555) =
      ({ st0 with partner_tokens := [(fxDomain, "FIXTOKEN12345")] },
       [Ev.http "GET" "https://demo.yclients.com/company/555555",
        Ev.http "GET" "https://demo.yclients.com/main-ABCD.js",
        Ev.http "GET" "https://demo.yclients.com/chunk-AAAA.js",
        Ev.http "GET" "https://demo.yclients.com/chunk-BBBB.js"])) ∧
    (ensurePartnerToken fxWebHtmlTok st0 fxDomain none =
      ({ st0 with partner_tokens := [(fxDomain, "HTMLTOKEN999")] },
       [Ev.http "GET" "https://demo.yclients.com/"])) ∧
    (ensurePartnerToken fxWebMainTok st0 fxDomain none =
      ({ st0 with partner_tokens := [(fxDomain, "MAINTOKEN999")] },
       [Ev.http "GET" "https://demo.yclients.com/",
        Ev.http "GET" "https://demo.yclients.com/main-ABCD.js"])) := by
  refine ⟨by decide, by decide, by decide⟩

/-- C3: once a partner credential is cached for a domain, no later
`_ensure_partner_token` call (for any domain, with any company hint) and no
later `BookingClient._request` (which runs the ensure step and never writes
the credential store elsewhere) replaces or removes it. -/
theorem c3_credential_immutable (web : Web) (st : BCState) (d dom : String)
    (cid : Option Nat) (t method path : String) (net : BResp)
    (h : st.partner_tokens.lookup dom = some t) :
    (ensurePartnerToken web st d cid).1.partner_tokens.lookup dom = some t ∧
    (bookingRequest web st d method path net).2.1.partner_tokens.lookup dom = some t :=
  ⟨ensure_preserve web st d cid dom t h,
   ensure_preserve web st d (companyIdHint path) dom t h⟩

/-- Witness for C3 at a concrete cached state. -/
theorem c3_witness :
    (ensurePartnerToken fxWeb ⟨"", [("cached.example", "CACHEDTOK123")], [], []⟩
        "other.example" none).1.partner_tokens.lookup "cached.example" =
      some "CACHEDTOK123" ∧
    (bookingRequest fxWeb ⟨"", [("cached.example", "CACHEDTOK123")], [], []⟩
        "other.example" "GET" "/x" (.exn "boom")).2.1.partner_tokens.lookup
        "cached.example" = some "CACHEDTOK123" :=
  c3_credential_immutable fxWeb ⟨"", [("cached.example", "CACHEDTOK123")], [], []⟩
    "other.example" "cached.example" none "CACHEDTOK123" "GET" "/x" (.exn "boom")
    (by decide)

/-- C5 counterexample: on a web where discovery finds nothing (the only
page answers 403), the first `_ensure_partner_token` call caches nothing,
so the second call for the same domain fetches again — network I/O is not
confined to the first call. -/
theorem c5_counterexample :
    (ensurePartnerToken cexWeb st0 "demo.example" none).2 =
      [Ev.http "GET" "https://demo.example/"] ∧
    (ensurePartnerToken cexWeb
        (ensurePartnerToken cexWeb st0 "demo.example" none).1
        "demo.example" none).2 =
      [Ev.http "GET" "https://demo.example/"] := by
  refine ⟨by decide, by decide⟩

/-- C5 amended: whenever the first `_ensure_partner_token` call leaves a
cached credential for the domain (in particular whenever discovery
succeeds, or a process-level token is configured), the second call for the
same domain issues no fetches and leaves the state untouched. -/
theorem c5_idempotent_after_successful_discovery (web : Web) (st : BCState)
    (d : String) (cid : Option Nat)
    (h : ((ensurePartnerToken web st d cid).1.partner_tokens.lookup d).isSome = true) :
    ensurePartnerToken web (ensurePartnerToken web st d cid).1 d cid =
      ((ensurePartnerToken web st d cid).1, []) :=
  ensure_cached_noop web _ d cid h

/-- Witness for the amended C5 on the transitive-chunk fixture. -/
theorem c5_witness :
    ensurePartnerToken fxWeb (ensurePartnerToken fxWeb st0 fxDomain (some 555555)).1
        fxDomain (some 555555) =
      ((ensurePartnerToken fxWeb st0 fxDomain (some 555555)).1, []) :=
  c5_idempotent_after_successful_discovery fxWeb st0 fxDomain (some 555555) (by decide)

/-- C7 counterexample: `BookingClient._request` issues an HTTP call to the
shared platform host `api.yclients.com` (here the page-1 fetch of the
`search_companies` scan) without any rate-limiter acquisition: its trace
contains the platform-host request and no `acq` event at all. -/
theorem c7_counterexample :
    limiterGuarded
        (bookingRequest [] c7State "api.yclients.com" "GET" "/api/v1/companies/"
          (.resp 200 "" (some (.obj [])) none)).2.2 = false ∧
    Ev.http "GET" "https://api.yclients.com/api/v1/companies/" ∈
      (bookingRequest [] c7State "api.yclients.com" "GET" "/api/v1/companies/"
        (.resp 200 "" (some (.obj [])) none)).2.2 := by
  refine ⟨by decide, by decide⟩

/-! ### The configured-token shortcut -/

theorem authHeader_form (st1 : BCState) (d g : String)
    (hres : resolvePartnerToken st1 d = g) (hg : strEmpty g = false) :
    authHeader st1 d = "Bearer " ++ g ∨
      ∃ u, authHeader st1 d = "Bearer " ++ g ++ ", User " ++ u := by
  unfold authHeader
  dsimp only
  rw [hres, hg]
  cases hu : (!strEmpty ((st1.user_tokens.lookup d).getD "")) with
  | false => left; simp [hu]
  | true => right; exact ⟨(st1.user_tokens.lookup d).getD "", by simp [hu]⟩

theorem ensure_global_shape (web : Web) (st : BCState) (d : String)
    (cid : Option Nat) (hg : strEmpty st.partner_token = false) :
    (ensurePartnerToken web st d cid = (st, []) ∧
      (st.partner_tokens.lookup d).isSome = true) ∨
    ensurePartnerToken web st d cid =
      ({ st with partner_tokens := upd st.partner_tokens d st.partner_token }, []) := by
  unfold ensurePartnerToken
  split
  · rename_i h1
    exact Or.inl ⟨rfl, h1⟩
  · rename_i h1
    split
    · rw [if_pos (show (!strEmpty st.partner_token) = true by rw [hg]; rfl)]
      exact Or.inr rfl
    · unfold ensureAux
      rw [if_neg h1]
      rw [if_pos (show (!strEmpty st.partner_token) = true by rw [hg]; rfl)]
      exact Or.inr rfl

/-- C4: with a process-level partner credential configured, ensuring a
credential for any domain performs no network access, the credential
resolved (and placed in the Authorization header) for that domain is the
configured one, and every cached per-domain credential still equals the
configured one afterwards — no page-scanned token can take precedence. -/
theorem c4_global_token_wins (web : Web) (st : BCState) (d : String)
    (cid : Option Nat)
    (hg : strEmpty st.partner_token = false)
    (hinv : ∀ p ∈ st.partner_tokens, p.2 = st.partner_token) :
    (ensurePartnerToken web st d cid).2 = [] ∧
    resolvePartnerToken (ensurePartnerToken web st d cid).1 d = st.partner_token ∧
    (∀ p ∈ (ensurePartnerToken web st d cid).1.partner_tokens,
      p.2 = st.partner_token) ∧
    (authHeader (ensurePartnerToken web st d cid).1 d = "Bearer " ++ st.partner_token ∨
      ∃ u, authHeader (ensurePartnerToken web st d cid).1 d =
        "Bearer " ++ st.partner_token ++ ", User " ++ u) := by
  rcases ensure_global_shape web st d cid hg with ⟨heq, hsome⟩ | heq
  · rw [heq]
    obtain ⟨t, ht⟩ := Option.isSome_iff_exists.mp hsome
    have htg : t = st.partner_token := hinv (d, t) (mem_of_lookup _ _ _ ht)
    have hres : resolvePartnerToken st d = st.partner_token := by
      unfold resolvePartnerToken
      rw [ht, htg]
      simp
    exact ⟨rfl, hres, hinv, authHeader_form st d st.partner_token hres hg⟩
  · rw [heq]
    have hres :
        resolvePartnerToken
          { st with partner_tokens := upd st.partner_tokens d st.partner_token } d =
          st.partner_token := by
      unfold resolvePartnerToken
      dsimp only
      rw [lookup_upd, if_pos rfl]
      simp
    refine ⟨rfl, hres, ?_, authHeader_form _ d st.partner_token hres hg⟩
    intro p hp
    rcases mem_upd _ _ _ p hp with h2 | h2
    · exact hinv p h2
    · rw [h2]

/-- Witness for C4 at a concrete configured token. -/
theorem c4_witness :
    (ensurePartnerToken [] ⟨"GLOBALTOK99", [], [], []⟩ "tenant.example" none).2 = [] ∧
    resolvePartnerToken
        (ensurePartnerToken [] ⟨"GLOBALTOK99", [], [], []⟩ "tenant.example" none).1
        "tenant.example" = "GLOBALTOK99" ∧
    (∀ p ∈ (ensurePartnerToken [] ⟨"GLOBALTOK99", [], [], []⟩
        "tenant.example" none).1.partner_tokens, p.2 = "GLOBALTOK99") ∧
    (authHeader (ensurePartnerToken [] ⟨"GLOBALTOK99", [], [], []⟩
        "tenant.example" none).1 "tenant.example" = "Bearer " ++ "GLOBALTOK99" ∨
      ∃ u, authHeader (ensurePartnerToken [] ⟨"GLOBALTOK99", [], [], []⟩
        "tenant.example" none).1 "tenant.example" =
        "Bearer " ++ "GLOBALTOK99" ++ ", User " ++ u) :=
  c4_global_token_wins [] ⟨"GLOBALTOK99", [], [], []⟩ "tenant.example" none
    (by decide) (by simp)

/-- C7 amended: every call that goes through the REST passthrough client
(`YClientsClient.request`) acquires the token-bucket limiter before each
HTTP attempt (including the single 429 retry), and the limiter delays an
over-budget caller by exactly the token deficit divided by the per-second
budget (zero wait once the bucket allows, so no call is dropped); however —
per the counterexample — the booking client's calls to the shared platform
host bypass the limiter entirely. -/
theorem c7_limiter_admission_amended :
    (∀ (method path : String) (a1 a2 : HResp),
      limiterGuarded (ycRequest method path a1 a2).2 = true) ∧
    (∀ (s : LimiterState) (now : ℚ), 0 < s.perSec →
      (acquireStep s now).2 =
        max 0 ((1 - min s.perSec (s.tokens + (now - s.last) * s.perSec)) / s.perSec)) := by
  constructor
  · intro method path a1 a2
    cases a1 with
    | timeout m => rfl
    | connectError m => rfl
    | otherError m => rfl
    | resp s t j =>
      by_cases h : (s == 429) = true
      · simp only [ycRequest, h, if_true]
        cases a2 <;> rfl
      · simp only [ycRequest]
        rw [if_neg h]
        rfl
  · intro s now hp
    unfold acquireStep
    dsimp only
    by_cases h : min s.perSec (s.tokens + (now - s.last) * s.perSec) < 1
    · rw [if_pos h]
      have hnum : 0 ≤ (1 - min s.perSec (s.tokens + (now - s.last) * s.perSec)) / s.perSec :=
        div_nonneg (by linarith) hp.le
      rw [max_eq_right hnum]
    · rw [if_neg h]
      have hnum : (1 - min s.perSec (s.tokens + (now - s.last) * s.perSec)) / s.perSec ≤ 0 :=
        div_nonpos_iff.mpr (Or.inr ⟨by linarith, hp.le⟩)
      rw [max_eq_left hnum]

/-- Witness for the amended C7. -/
theorem c7_witness :
    limiterGuarded (ycRequest "GET" "/api/v1/companies/" (.resp 200 "" none)
      (.timeout "t")).2 = true ∧
    (acquireStep ⟨5, 1/2, 0⟩ 0).2 =
      max 0 ((1 - min (5 : ℚ) (1/2 + (0 - 0) * 5)) / 5) :=
  ⟨c7_limiter_admission_amended.1 "GET" "/api/v1/companies/" (.resp 200 "" none)
      (.timeout "t"),
   c7_limiter_admission_amended.2 ⟨5, 1/2, 0⟩ 0 (by norm_num)⟩

/-- C6: transport failures are converted to structured `error: true`
values rather than raised, across `YClientsClient.request`, the booking
client's `_request`, and the `user_confirm_*` operations; every non-2xx
response is returned (not raised) annotated with its numeric status code
and — where the body parses — the parsed error detail. -/
theorem c6_error_value_semantics :
    (∀ (method path m : String) (a2 : HResp),
      ycRequest method path (.timeout m) a2 =
        (.ok (ycErrorVal "Request timed out"),
         [Ev.acq, Ev.http method (ycBaseUrl ++ path)])) ∧
    (∀ (method path m : String) (a2 : HResp),
      ycRequest method path (.connectError m) a2 =
        (.ok (ycErrorVal ("Connection failed: " ++ m)),
         [Ev.acq, Ev.http method (ycBaseUrl ++ path)])) ∧
    (∀ (method path text : String) (s : Nat) (j : Option JVal) (a2 : HResp),
      400 ≤ s → s ≠ 429 →
      ycRequest method path (.resp s text j) a2 =
        (.ok (.obj [("error", .bool true), ("status_code", .num (s : Int)),
                    ("detail", j.getD (.obj [("status", .num (s : Int))]))]),
         [Ev.acq, Ev.http method (ycBaseUrl ++ path)])) ∧
    (∀ m : String,
      (containsSub (strLower m) "timed out" || containsSub (strLower m) "timeout") = true →
      bookingProcessResponse (.exn m) =
        .obj [("error", .bool true), ("message", .str "Request timed out")]) ∧
    (∀ m : String,
      (containsSub (strLower m) "timed out" || containsSub (strLower m) "timeout") = false →
      bookingProcessResponse (.exn m) =
        .obj [("error", .bool true), ("message", .str ("Connection failed: " ++ m))]) ∧
    (∀ (s : Nat) (text : String) (kvs : List (String × JVal)),
      400 ≤ s →
      bookingProcessResponse (.resp s text (some (.obj kvs)) none) =
        .obj (upd kvs "_status_code" (.num (s : Int)))) ∧
    (userConfirmProcess .timeout =
      .obj [("error", .bool true), ("message", .str "Request timed out")]) ∧
    (∀ m : String, userConfirmProcess (.connectError m) =
      .obj [("error", .bool true), ("message", .str ("Connection failed: " ++ m))]) := by
  refine ⟨fun _ _ _ _ => rfl, fun _ _ _ _ => rfl, ?_, ?_, ?_, ?_, rfl, fun _ => rfl⟩
  · intro method path text s j a2 h400 h429
    have hb : (s == 429) = false := beq_eq_false_iff_ne.mpr h429
    simp only [ycRequest]
    rw [if_neg (by simp [hb])]
    simp only [ycFinish]
    rw [if_pos h400]
  · intro m h
    unfold bookingProcessResponse
    dsimp only
    rw [if_pos h]
  · intro m h
    unfold bookingProcessResponse
    dsimp only
    rw [if_neg (by simp [h])]
  · intro s text kvs h400
    unfold bookingProcessResponse
    dsimp only
    rw [if_pos h400]
    rfl

/-- Witness for C6 at concrete failures and a concrete 404. -/
theorem c6_witness :
    ycRequest "GET" "/api/v1/missing" (.resp 404 "" none) (.timeout "x") =
      (.ok (.obj [("error", .bool true), ("status_code", .num 404),
                  ("detail", .obj [("status", .num 404)])]),
       [Ev.acq, Ev.http "GET" "https://api.yclients.com/api/v1/missing"]) ∧
    bookingProcessResponse (.exn "operation timed out") =
      .obj [("error", .bool true), ("message", .str "Request timed out")] ∧
    bookingProcessResponse (.exn "no route to host") =
      .obj [("error", .bool true),
            ("message", .str ("Connection failed: " ++ "no route to host"))] ∧
    bookingProcessResponse (.resp 404 "" (some (.obj [("success", .bool false)])) none) =
      .obj (upd [("success", .bool false)] "_status_code" (.num 404)) :=
  ⟨(c6_error_value_semantics.2.2.1 "GET" "/api/v1/missing" "" 404 none (.timeout "x")
      (by decide) (by decide)).trans rfl,
   c6_error_value_semantics.2.2.2.1 "operation timed out" (by decide),
   c6_error_value_semantics.2.2.2.2.1 "no route to host" (by decide),
   c6_error_value_semantics.2.2.2.2.2.1 404 "" [("success", .bool false)] (by decide)⟩

/-! ### The 412 confirmation transition of `book_record` -/

/-- A security-level payload carrying a reCAPTCHA site key and a
`user_confirm` url/token pair. -/
def secPayload (k u t : String) : JVal :=
  .obj [("recaptcha_v3", .obj [("key", .str k)]),
        ("user_confirm", .obj [("url", .str u), ("token", .str t)])]

/-- A 412 response body: plain when the payload travels in the
`X-App-Security-Level` header, else carrying the payload in the JSON
`errors` field. -/
def body412 (useHeader : Bool) (k u t : String) : JVal :=
  if useHeader then .obj [("success", .bool false)]
  else .obj [("success", .bool false),
             ("errors", .obj [("X-App-Security-Level", secPayload k u t)])]

/-- The parsed security header accompanying `body412`. -/
def sec412 (useHeader : Bool) (k u t : String) : Option JVal :=
  if useHeader then some (secPayload k u t) else none

/-- The machine-actionable confirmation value `book_record` returns on a
412 carrying site key `k`, confirm URL `u` and extracted token `tk`. -/
def captchaResult (k u tk : String) : JVal :=
  .obj [("error", .bool true),
        ("requires_captcha", .bool true),
        ("recaptcha_v3_key", .str k),
        ("user_confirm_url", if strEmpty u then JVal.null else .str u),
        ("user_confirm_token", .str tk),
        ("message", .str ("YCLIENTS requires phone verification for booking."
          ++ (" Call user_confirm_start_check with token: " ++ tk)
          ++ (" reCAPTCHA site key: " ++ k)))]

/-- What `_request` hands to the 412 branch when the payload travels in the
security header. -/
def res412hdr (k u t : String) : JVal :=
  .obj [("success", .bool false), ("_status_code", .num 412),
        ("_security_level", secPayload k u t)]

/-- What `_request` hands to the 412 branch when the payload travels in the
JSON `errors` field. -/
def res412body (k u t : String) : JVal :=
  .obj [("success", .bool false),
        ("errors", .obj [("X-App-Security-Level", secPayload k u t)]),
        ("_status_code", .num 412)]

/-- The 412 output as a function of the extracted key, url and token. -/
def captchaCore (k u tokv : String) : JVal :=
  .obj [("error", .bool true),
        ("requires_captcha", .bool true),
        ("recaptcha_v3_key", if strEmpty k then JVal.null else .str k),
        ("user_confirm_url", if strEmpty u then JVal.null else .str u),
        ("user_confirm_token", if strEmpty tokv then JVal.null else .str tokv),
        ("message", .str ("YCLIENTS requires phone verification for booking."
          ++ (if strEmpty tokv then ""
              else " Call user_confirm_start_check with token: " ++ tokv)
          ++ (if strEmpty k then "" else " reCAPTCHA site key: " ++ k)))]

theorem captchaCore_eq (k u tk : String) (hk : strEmpty k = false)
    (htk : strEmpty tk = false) :
    captchaCore k u tk = captchaResult k u tk := by
  unfold captchaCore captchaResult
  rw [hk, htk]
  simp

theorem bookRecord412_hdr (k u t : String) :
    bookRecord412 (res412hdr k u t) =
      captchaCore k u
        (if (strEmpty t && !strEmpty u) = true then
          (match confirmTokenOfUrl u with | some x => x | none => t)
        else t) := rfl

theorem bookRecord412_body (k u t : String) :
    bookRecord412 (res412body k u t) =
      captchaCore k u
        (if (strEmpty t && !strEmpty u) = true then
          (match confirmTokenOfUrl u with | some x => x | none => t)
        else t) := rfl

/-- C2: a booking POST answered with status 412 and a security payload (in
the `X-App-Security-Level` header or the fallback JSON `errors` field)
holding a CAPTCHA site key and a confirmation URL yields a value with
`requires_captcha = true`, the extracted site key, and a populated
`user_confirm_token` — taken from the payload when given directly, else
parsed out of the `/user/confirm/<hex>` URL path segment — instead of a
generic HTTP-error value. -/
theorem c2_412_captcha_transition (k u t tk : String) (useHeader : Bool)
    (hk : strEmpty k = false)
    (ht : (strEmpty t = true ∧ confirmTokenOfUrl u = some tk) ∨
          (strEmpty t = false ∧ tk = t)) :
    bookRecordResult
        (bookingProcessResponse
          (.resp 412 "" (some (body412 useHeader k u t)) (sec412 useHeader k u t))) =
      captchaResult k u tk := by
  have hstep :
      bookRecordResult
          (bookingProcessResponse
            (.resp 412 "" (some (body412 useHeader k u t)) (sec412 useHeader k u t))) =
        captchaCore k u
          (if (strEmpty t && !strEmpty u) = true then
            (match confirmTokenOfUrl u with | some x => x | none => t)
          else t) := by
    cases useHeader
    · exact bookRecord412_body k u t
    · exact bookRecord412_hdr k u t
  rw [hstep]
  rcases ht with ⟨ht1, ht2⟩ | ⟨ht1, ht2⟩
  · have htk : strEmpty tk = false :=
      strEmpty_false_of_long tk
        (le_trans (by norm_num) (confirmTokenOfUrl_long u tk ht2))
    have hu : strEmpty u = false := by
      by_cases hu0 : u = ""
      · subst hu0
        rw [show confirmTokenOfUrl "" = none from rfl] at ht2
        cases ht2
      · exact strEmpty_false_of_ne u hu0
    rw [ht1, hu]
    simp only [Bool.not_false, Bool.and_self, if_true, ht2]
    exact captchaCore_eq k u tk hk htk
  · have htk : strEmpty tk = false := ht2 ▸ ht1
    rw [ht1]
    simp only [Bool.false_and, Bool.false_eq_true, if_false]
    rw [← ht2]
    exact captchaCore_eq k u tk hk htk

/-- Witness for C2: concrete 412 with the token only inside the confirm
URL, payload in the header. -/
theorem c2_witness :
    bookRecordResult
        (bookingProcessResponse
          (.resp 412 ""
            (some (body412 true "SITEKEY123"
              "https://yclients.com/user/confirm/0123456789abcdef0123456789abcdef01234567" ""))
            (sec412 true "SITEKEY123"
              "https://yclients.com/user/confirm/0123456789abcdef0123456789abcdef01234567" ""))) =
      captchaResult "SITEKEY123"
        "https://yclients.com/user/confirm/0123456789abcdef0123456789abcdef01234567"
        "0123456789abcdef0123456789abcdef01234567" :=
  c2_412_captcha_transition "SITEKEY123"
    "https://yclients.com/user/confirm/0123456789abcdef0123456789abcdef01234567" ""
    "0123456789abcdef0123456789abcdef01234567" true (by decide)
    (Or.inl ⟨by decide, by decide⟩)

/-! ### Reflexivity of JSON equality and merge invariants -/

mutual

theorem JVal.beq_refl : ∀ v : JVal, JVal.beq v v = true
  | .null => rfl
  | .bool b => by simp [JVal.beq]
  | .num n => by simp [JVal.beq]
  | .str s => by simp [JVal.beq]
  | .arr xs => by rw [JVal.beq]; exact JVal.beqList_refl xs
  | .obj kvs => by rw [JVal.beq]; exact JVal.beqKvs_refl kvs

theorem JVal.beqList_refl : ∀ xs : List JVal, JVal.beqList xs xs = true
  | [] => rfl
  | x :: xs => by
    rw [JVal.beqList, JVal.beq_refl x, JVal.beqList_refl xs]
    rfl

theorem JVal.beqKvs_refl : ∀ kvs : List (String × JVal), JVal.beqKvs kvs kvs = true
  | [] => rfl
  | (k, v) :: rest => by
    rw [JVal.beqKvs, beq_self_eq_true, JVal.beq_refl v, JVal.beqKvs_refl rest]
    rfl

end

theorem jvalMem_true_iff (x : JVal) (l : List JVal) :
    jvalMem x l = true ↔ ∃ y ∈ l, JVal.beq x y = true := by
  induction l with
  | nil => simp [jvalMem]
  | cons y ys ih =>
    simp only [jvalMem, Bool.or_eq_true, ih, List.mem_cons]
    constructor
    · rintro (h | ⟨z, hz, hbe⟩)
      · exact ⟨y, Or.inl rfl, h⟩
      · exact ⟨z, Or.inr hz, hbe⟩
    · rintro ⟨z, hz | hz, hbe⟩
      · left; rw [← hz]; exact hbe
      · right; exact ⟨z, hz, hbe⟩

theorem jvalMem_false (x : JVal) (l : List JVal) (h : jvalMem x l = false) :
    ∀ y ∈ l, JVal.beq x y = false := by
  intro y hy
  cases hb : JVal.beq x y with
  | false => rfl
  | true =>
    have : jvalMem x l = true := (jvalMem_true_iff x l).mpr ⟨y, hy, hb⟩
    rw [h] at this
    cases this

/-- Invariant tying the `seen_ids` set to the `matched` accumulator of
`search_companies`: seen ids are exactly the ids of matched companies. -/
def MergeInv (seen matched : List JVal) : Prop :=
  (∀ x ∈ seen, ∃ c ∈ matched, idOf c = x) ∧ (∀ c ∈ matched, idOf c ∈ seen)

theorem mergeInv_nil : MergeInv [] [] :=
  ⟨fun x hx => absurd hx (List.not_mem_nil x), fun c hc => absurd hc (List.not_mem_nil c)⟩

theorem mergeInv_step (c : JVal) (seen matched : List JVal)
    (h : MergeInv seen matched) : MergeInv (idOf c :: seen) (matched ++ [c]) := by
  constructor
  · intro x hx
    rcases List.mem_cons.mp hx with h1 | h1
    · exact ⟨c, List.mem_append_right _ (List.mem_singleton.mpr rfl), h1.symm⟩
    · obtain ⟨c2, hc2, he⟩ := h.1 x h1
      exact ⟨c2, List.mem_append_left _ hc2, he⟩
  · intro a ha
    rcases List.mem_append.mp ha with h1 | h1
    · exact List.mem_cons_of_mem _ (h.2 a h1)
    · rw [List.mem_singleton.mp h1]
      exact List.mem_cons_self _ _

theorem addCompanies_sub (cs : List JVal) (seen matched : List JVal) :
    ∀ a ∈ matched, a ∈ (addCompanies cs seen matched).2 := by
  induction cs generalizing seen matched with
  | nil => exact fun a ha => ha
  | cons c rest ih =>
    intro a ha
    unfold addCompanies
    split
    · exact ih _ _ a (List.mem_append_left _ ha)
    · exact ih _ _ a ha

theorem mergeLoop_sub (results : List TaskResult) (seen matched : List JVal) :
    ∀ a ∈ matched, a ∈ (mergeLoop results seen matched).2 := by
  induction results generalizing seen matched with
  | nil => exact fun a ha => ha
  | cons r rest ih =>
    intro a ha
    cases r with
    | error e => exact ih _ _ a ha
    | ok v =>
      simp only [mergeLoop]
      exact ih _ _ a (addCompanies_sub _ _ _ a ha)

theorem addCompanies_inv (cs : List JVal) (seen matched : List JVal)
    (h : MergeInv seen matched) :
    MergeInv (addCompanies cs seen matched).1 (addCompanies cs seen matched).2 := by
  induction cs generalizing seen matched with
  | nil => exact h
  | cons c rest ih =>
    unfold addCompanies
    split
    · exact ih _ _ (mergeInv_step c seen matched h)
    · exact ih _ _ h

theorem addCompanies_covers (cs : List JVal) (seen matched : List JVal)
    (h : MergeInv seen matched) (c : JVal) (hc : c ∈ cs)
    (htr : (idOf c).truthy = true) :
    ∃ c2 ∈ (addCompanies cs seen matched).2,
      JVal.beq (idOf c) (idOf c2) = true := by
  induction cs generalizing seen matched with
  | nil => cases hc
  | cons c0 rest ih =>
    unfold addCompanies
    rcases List.mem_cons.mp hc with heq | hmem
    · subst heq
      by_cases hcond : ((idOf c).truthy && !jvalMem (idOf c) seen) = true
      · rw [if_pos hcond]
        exact ⟨c, addCompanies_sub rest _ _ c
          (List.mem_append_right _ (List.mem_singleton.mpr rfl)), JVal.beq_refl _⟩
      · rw [if_neg hcond]
        have hmem2 : jvalMem (idOf c) seen = true := by
          cases hj : jvalMem (idOf c) seen with
          | true => rfl
          | false => exact absurd (by rw [htr, hj]; rfl) hcond
        obtain ⟨y, hy, hbe⟩ := (jvalMem_true_iff _ _).mp hmem2
        obtain ⟨c2, hc2, he⟩ := h.1 y hy
        refine ⟨c2, addCompanies_sub rest _ _ c2 hc2, ?_⟩
        rw [he]
        exact hbe
    · split
      · exact ih _ _ (mergeInv_step c0 seen matched h) hmem
      · exact ih _ _ h hmem

theorem mergeLoop_covers (results : List TaskResult) (seen matched : List JVal)
    (h : MergeInv seen matched) (v : JVal) (hv : Except.ok v ∈ results)
    (c : JVal) (hc : c ∈ jArrOf (jGetD v "data" (.arr [])))
    (htr : (idOf c).truthy = true) :
    ∃ c2 ∈ (mergeLoop results seen matched).2,
      JVal.beq (idOf c) (idOf c2) = true := by
  induction results generalizing seen matched with
  | nil => cases hv
  | cons r rest ih =>
    cases r with
    | error e =>
      have hv2 : Except.ok v ∈ rest := by
        rcases List.mem_cons.mp hv with h1 | h1
        · cases h1
        · exact h1
      exact ih _ _ h hv2
    | ok v0 =>
      simp only [mergeLoop]
      rcases List.mem_cons.mp hv with h1 | h1
      · have hveq : v = v0 := by
          injection h1
        subst hveq
        obtain ⟨c2, hc2, hbe⟩ := addCompanies_covers _ _ _ h c hc htr
        exact ⟨c2, mergeLoop_sub rest _ _ c2 hc2, hbe⟩
      · exact ih _ _ (addCompanies_inv _ _ _ h) h1

theorem addCompanies_pairwise (cs : List JVal) (seen matched : List JVal)
    (h : MergeInv seen matched)
    (hp : List.Pairwise (fun a b => JVal.beq (idOf b) (idOf a) = false) matched) :
    List.Pairwise (fun a b => JVal.beq (idOf b) (idOf a) = false)
      (addCompanies cs seen matched).2 := by
  induction cs generalizing seen matched with
  | nil => exact hp
  | cons c rest ih =>
    unfold addCompanies
    split
    · rename_i hcond
      refine ih _ _ (mergeInv_step c seen matched h) ?_
      rw [List.pairwise_append]
      refine ⟨hp, List.pairwise_singleton _ _, ?_⟩
      intro a ha b hb
      rw [List.mem_singleton.mp hb]
      have hm : jvalMem (idOf c) seen = false := by
        rw [Bool.and_eq_true] at hcond
        rcases hcond with ⟨_, hnm⟩
        cases hj : jvalMem (idOf c) seen with
        | false => rfl
        | true => rw [hj] at hnm; cases hnm
      exact jvalMem_false _ _ hm (idOf a) (h.2 a ha)
    · exact ih _ _ h hp

theorem mergeLoop_pairwise (results : List TaskResult) (seen matched : List JVal)
    (h : MergeInv seen matched)
    (hp : List.Pairwise (fun a b => JVal.beq (idOf b) (idOf a) = false) matched) :
    List.Pairwise (fun a b => JVal.beq (idOf b) (idOf a) = false)
      (mergeLoop results seen matched).2 := by
  induction results generalizing seen matched with
  | nil => exact hp
  | cons r rest ih =>
    cases r with
    | error e => exact ih _ _ h hp
    | ok v =>
      simp only [mergeLoop]
      exact ih _ _ (addCompanies_inv _ _ _ h) (addCompanies_pairwise _ _ _ h hp)

/-- C8: in the unfiltered `search_companies` fan-out, merging the gathered
per-category outcomes tolerates individual task failures: for every outcome
list in which some tasks failed, every company returned by a successful
task with a truthy id is still represented in the merged list (by id), ids
are deduplicated (no two merged entries share an id), and the returned
value is the merged list truncated to the requested count. -/
theorem c8_merge_fault_tolerant (results : List TaskResult) (count : Nat)
    (hfail : ∃ r ∈ results, ∀ v, r ≠ Except.ok v) :
    (∀ v : JVal, Except.ok v ∈ results →
      ∀ c ∈ jArrOf (jGetD v "data" (.arr [])), (idOf c).truthy = true →
        ∃ c2 ∈ (mergeLoop results [] []).2, JVal.beq (idOf c) (idOf c2) = true) ∧
    List.Pairwise (fun a b => JVal.beq (idOf b) (idOf a) = false)
      (mergeLoop results [] []).2 ∧
    searchCompaniesMerge results count =
      .obj [("success", .bool true),
            ("count", .num ((mergeLoop results [] []).2.length : Int)),
            ("data", .arr ((mergeLoop results [] []).2.take count))] := by
  refine ⟨?_, ?_, rfl⟩
  · intro v hv c hc htr
    exact mergeLoop_covers results [] [] mergeInv_nil v hv c hc htr
  · exact mergeLoop_pairwise results [] [] mergeInv_nil List.Pairwise.nil

/-- Witness for C8: one successful category, one failed category. -/
theorem c8_witness :
    (∀ v : JVal,
      Except.ok v ∈ ([Except.ok (JVal.obj [("data",
          JVal.arr [JVal.obj [("id", JVal.num 1)]])]), Except.error "boom"] :
            List TaskResult) →
      ∀ c ∈ jArrOf (jGetD v "data" (.arr [])), (idOf c).truthy = true →
        ∃ c2 ∈ (mergeLoop [Except.ok (JVal.obj [("data",
            JVal.arr [JVal.obj [("id", JVal.num 1)]])]), Except.error "boom"] [] []).2,
          JVal.beq (idOf c) (idOf c2) = true) ∧
    List.Pairwise (fun a b => JVal.beq (idOf b) (idOf a) = false)
      (mergeLoop [Except.ok (JVal.obj [("data",
        JVal.arr [JVal.obj [("id", JVal.num 1)]])]), Except.error "boom"] [] []).2 ∧
    searchCompaniesMerge [Except.ok (JVal.obj [("data",
        JVal.arr [JVal.obj [("id", JVal.num 1)]])]), Except.error "boom"] 10 =
      .obj [("success", .bool true),
            ("count", .num ((mergeLoop [Except.ok (JVal.obj [("data",
              JVal.arr [JVal.obj [("id", JVal.num 1)]])]), Except.error "boom"]
              [] []).2.length : Int)),
            ("data", .arr ((mergeLoop [Except.ok (JVal.obj [("data",
              JVal.arr [JVal.obj [("id", JVal.num 1)]])]), Except.error "boom"]
              [] []).2.take 10))] :=
  c8_merge_fault_tolerant
    [Except.ok (JVal.obj [("data", JVal.arr [JVal.obj [("id", JVal.num 1)]])]),
     Except.error "boom"] 10
    ⟨Except.error "boom", by simp, fun v h => Except.noConfusion h⟩

/-! ### Attendance-flattening lemmas -/

theorem jvalListOr_arr (xs : List JVal) : jvalListOr (.arr xs) = xs := by
  cases xs with
  | nil => rfl
  | cons a l => rfl

/-- An attendance carrying an id, a datetime, and a list of record
references. -/
def attFixture (aid : JVal) (dt : String) (refs : List JVal) : JVal :=
  .obj [("id", aid),
        ("attributes", .obj [("datetime", .str dt)]),
        ("relationships", .obj [("records", .obj [("data", .arr refs)])])]

/-- The flattened entry produced for one attendance as a function of the
resolved (services, staff, specialization) triple. -/
def entryShell (aid : JVal) (dt : String) (res : List JVal × String × String) : JVal :=
  .obj [("id", aid), ("datetime", .str dt), ("create_date", .str ""),
        ("services", .arr res.1), ("staff", .str res.2.1),
        ("staff_specialization", .str res.2.2), ("status", .str "None"),
        ("duration_min", .num 0), ("paid_amount", .null), ("is_prepaid", .bool false),
        ("activity_id", .null), ("comment", .null), ("is_deleted", .bool false),
        ("can_cancel", .bool false), ("can_change", .bool false)]

/-- The entry of an attendance none of whose references resolved: empty
services, empty staff fields. -/
def emptyEntry (aid : JVal) (dt : String) : JVal :=
  entryShell aid dt ([], "", "")

theorem recRefsLoop_unresolved (inc : IncMap) (refs : List JVal)
    (h : ∀ ref ∈ refs, incGet inc (refKey ref) = none) :
    ∀ services sn sp, recRefsLoop inc refs services sn sp = (services, sn, sp) := by
  induction refs with
  | nil => intro s sn sp; rfl
  | cons r rest ih =>
    intro s sn sp
    unfold recRefsLoop
    rw [h r (List.mem_cons_self r rest)]
    exact ih (fun x hx => h x (List.mem_cons_of_mem r hx)) s sn sp

theorem serviceItemsLoop_unresolved (inc : IncMap) (siRefs : List JVal)
    (h : ∀ r ∈ siRefs, incGet inc (refKey r) = none) :
    serviceItemsLoop inc siRefs = [] := by
  induction siRefs with
  | nil => rfl
  | cons r rest ih =>
    unfold serviceItemsLoop
    rw [h r (List.mem_cons_self r rest)]
    exact ih (fun x hx => h x (List.mem_cons_of_mem r hx))

theorem staffResolve_unresolved (inc : IncMap) (kvs : List (String × JVal))
    (h : incGet inc (refKey (.obj kvs)) = none) :
    staffResolve inc (.obj kvs) = none := by
  cases kvs with
  | nil => rfl
  | cons p rest =>
    unfold staffResolve
    dsimp only
    rw [h]
    rfl

theorem buildEntry_unresolved (inc : IncMap) (aid : JVal) (dt : String)
    (refs : List JVal) (h : ∀ ref ∈ refs, incGet inc (refKey ref) = none) :
    buildEntry inc (attFixture aid dt refs) = emptyEntry aid dt := by
  have h1 : buildEntry inc (attFixture aid dt refs) =
      entryShell aid dt (recRefsLoop inc (jvalListOr (.arr refs)) [] "" "") := rfl
  rw [h1, jvalListOr_arr, recRefsLoop_unresolved inc refs h]
  rfl

theorem parseLoop_single_dt (inc : IncMap) (aid : JVal) (dt : String)
    (refs : List JVal) (hdt : strEmpty dt = false) :
    parseLoop inc none none [attFixture aid dt refs] =
      [buildEntry inc (attFixture aid dt refs)] := by
  unfold parseLoop
  dsimp only
  rw [show attDatetime (attFixture aid dt refs) = dt from rfl, hdt]
  rfl

/-- C9: relationship references absent from the `included` side-table are
skipped, not errors: an attendance whose record references all fail to
resolve still yields a flattened entry, with an empty services list and
empty staff fields; likewise unmatched service-item references contribute
no service and an unmatched staff reference resolves to nothing. -/
theorem c9_unmatched_refs_skipped (aid : JVal) (dt : String)
    (refs included : List JVal)
    (hdt : strEmpty dt = false)
    (hrefs : ∀ ref ∈ refs, incGet (buildIncMap included []) (refKey ref) = none) :
    parseAttendances
        (.obj [("data", .arr [attFixture aid dt refs]), ("included", .arr included)])
        none none =
      .obj [("success", .bool true), ("total", .num 1),
            ("records", .arr [emptyEntry aid dt])] ∧
    (∀ (inc : IncMap) (siRefs : List JVal),
      (∀ r ∈ siRefs, incGet inc (refKey r) = none) →
      serviceItemsLoop inc siRefs = []) ∧
    (∀ (inc : IncMap) (kvs : List (String × JVal)),
      incGet inc (refKey (.obj kvs)) = none → staffResolve inc (.obj kvs) = none) := by
  refine ⟨?_, serviceItemsLoop_unresolved, staffResolve_unresolved⟩
  have h1 : parseAttendances
      (.obj [("data", .arr [attFixture aid dt refs]), ("included", .arr included)])
      none none =
      .obj [("success", .bool true),
            ("total", .num ((parseLoop (buildIncMap (jvalListOr (.arr included)) [])
              none none [attFixture aid dt refs]).length : Int)),
            ("records", .arr (parseLoop (buildIncMap (jvalListOr (.arr included)) [])
              none none [attFixture aid dt refs]))] := rfl
  rw [h1, jvalListOr_arr, parseLoop_single_dt _ aid dt refs hdt,
    buildEntry_unresolved _ aid dt refs hrefs]
  rfl

/-- Witness for C9: one attendance whose single record reference is absent
from `included`. -/
theorem c9_witness :
    parseAttendances
        (.obj [("data", .arr [attFixture (.num 7) "2026-01-01 10:00:00"
            [.obj [("type", .str "record"), ("id", .num 5)]]]),
          ("included", .arr [.obj [("type", .str "staff"), ("id", .num 1)]])])
        none none =
      .obj [("success", .bool true), ("total", .num 1),
            ("records", .arr [emptyEntry (.num 7) "2026-01-01 10:00:00"])] ∧
    (∀ (inc : IncMap) (siRefs : List JVal),
      (∀ r ∈ siRefs, incGet inc (refKey r) = none) →
      serviceItemsLoop inc siRefs = []) ∧
    (∀ (inc : IncMap) (kvs : List (String × JVal)),
      incGet inc (refKey (.obj kvs)) = none → staffResolve inc (.obj kvs) = none) :=
  c9_unmatched_refs_skipped (.num 7) "2026-01-01 10:00:00"
    [.obj [("type", .str "record"), ("id", .num 5)]]
    [.obj [("type", .str "staff"), ("id", .num 1)]]
    (by decide)
    (by intro ref hr; rw [List.mem_singleton.mp hr]; rfl)

theorem parseLoop_filter (inc : IncMap) (recs : List JVal) :
    parseLoop inc none none recs =
      (recs.filter (fun r => !strEmpty (attDatetime r))).map (buildEntry inc) := by
  induction recs with
  | nil => rfl
  | cons r rest ih =>
    unfold parseLoop
    dsimp only
    by_cases h : strEmpty (attDatetime r) = true
    · rw [if_pos h, ih, List.filter_cons]
      simp [h]
    · rw [if_neg h]
      rw [if_neg (show ¬((!dateKeep (attDatetime r) none none) = true) by
        simp [dateKeep])]
      rw [ih, List.filter_cons]
      have h2 : (!strEmpty (attDatetime r)) = true := by
        cases hs : strEmpty (attDatetime r) with
        | true => exact absurd hs h
        | false => rfl
      simp [h2]

/-- C10 (implicit): `_parse_attendances` silently omits every attendance
whose attributes lack a truthy `datetime` string, even with no date-range
filter supplied, and the reported total counts only the attendances that
carry a datetime. -/
theorem c10_datetimeless_omitted (recs included : List JVal) :
    parseAttendances (.obj [("data", .arr recs), ("included", .arr included)])
        none none =
      .obj [("success", .bool true),
            ("total", .num (((recs.filter (fun r => !strEmpty (attDatetime r))).length : Nat) : Int)),
            ("records", .arr ((recs.filter (fun r => !strEmpty (attDatetime r))).map
              (buildEntry (buildIncMap included []))))] := by
  have h1 : parseAttendances
      (.obj [("data", .arr recs), ("included", .arr included)]) none none =
      .obj [("success", .bool true),
            ("total", .num ((parseLoop (buildIncMap (jvalListOr (.arr included)) [])
              none none recs).length : Int)),
            ("records", .arr (parseLoop (buildIncMap (jvalListOr (.arr included)) [])
              none none recs))] := rfl
  rw [h1, jvalListOr_arr, parseLoop_filter, List.length_map]

example : partnerTokenSearch "xx apiToken:\"Bearer ABCDEFGH123\" yy" = some "ABCDEFGH123" := by decide
example : partnerTokenSearch "var x = 1;" = none := by decide
example : partnerTokenSearch "\"partner_token\": \"deadbeef99\"" = some "deadbeef99" := by decide
example : searchPat mainJsAt "<script src=\"main-XYZ12.js\"></script>".data = some "main-XYZ12.js" := by decide
example : findAll chunkRefAt "import\"./chunk-AAAA.js\";x(\"./chunk-BBBB.js\")" = ["chunk-AAAA.js", "chunk-BBBB.js"] := by decide
example : confirmTokenOfUrl "https://yclients.com/user/confirm/0123456789abcdef0123456789abcdef01234567" = some "0123456789abcdef0123456789abcdef01234567" := by decide
example : companyIdHint "/api/v1/book_code/806724/channel" = some 806724 := by decide
example : containsSub "connection timed out here" "timed out" = true := by decide

end YC
